import Mathlib

/-
Verification development for the ESP32-CAM streaming/command firmware
(src/AutoTrackingAprilTagSmartCar_Group6/ESP32 CAM Terminal/src/main.cpp).

The file shallowly embeds the parts of main.cpp the claims are about:
the JSON command endpoint (on_cmd_body, map_motion, send_to_uno), the
single-slot JPEG frame cache (the cache update inside cameraTask and
copy_last_jpg), and the MJPEG client registry with its broadcast pass
(mjpeg_broadcast, mjpeg_send_frame_to, the /mjpeg onDisconnect callback
and client registration).  External collaborators (FreeRTOS semaphores,
AsyncTCP connections, the ArduinoJson parser) are modelled at their
interface: lock acquisitions become explicit boolean interleaving
parameters, a connection becomes a record of its liveness and available
outbound buffer space, and writes become accumulated byte/chunk logs.
-/

namespace Esp32Cam

/-! ## Command gateway: JSON document model -/

/-- A JSON value as the command endpoint consumes it: the commands the
specification describes are flat objects whose members are strings or
integers. -/
inductive JVal where
  | jstr (s : String)
  | jnum (n : Int)
deriving DecidableEq, Repr

/-- Opening brace character, written via its code point. -/
def lbraceChar : Char := Char.ofNat 123

/-- Closing brace character, written via its code point. -/
def rbraceChar : Char := Char.ofNat 125

/-- Double-quote character, written via its code point. -/
def quoteChar : Char := Char.ofNat 34

/-- JSON insignificant whitespace. -/
def isWsChar (c : Char) : Bool := c == ' ' || c == '\t' || c == '\n' || c == '\r'

/-- Drop leading JSON whitespace. -/
def skipWs (cs : List Char) : List Char := cs.dropWhile isWsChar

/-- Parse a double-quoted string literal (no escape sequences: the
commands at issue contain none). -/
def parseStrLit (cs : List Char) : Option (String × List Char) :=
  match cs with
  | [] => none
  | c :: rest =>
    if c = quoteChar then
      let content := rest.takeWhile (fun ch => !(ch == quoteChar))
      match rest.drop content.length with
      | c2 :: tail => if c2 = quoteChar then some (String.mk content, tail) else none
      | [] => none
    else none

/-- Numeric value of a digit string. -/
def digitsToNat (ds : List Char) : Nat := ds.foldl (fun a c => a * 10 + (c.toNat - 48)) 0

/-- Parse an optionally negated integer literal. -/
def parseIntLit (cs : List Char) : Option (Int × List Char) :=
  match cs with
  | [] => none
  | c :: rest =>
    if c = '-' then
      let ds := rest.takeWhile Char.isDigit
      if ds.isEmpty then none
      else some (-(Int.ofNat (digitsToNat ds)), rest.drop ds.length)
    else
      let ds := cs.takeWhile Char.isDigit
      if ds.isEmpty then none
      else some (Int.ofNat (digitsToNat ds), cs.drop ds.length)

/-- Parse one member value: a string or an integer. -/
def parseVal (cs : List Char) : Option (JVal × List Char) :=
  match cs with
  | [] => none
  | c :: _ =>
    if c = quoteChar then (parseStrLit cs).map (fun p => (JVal.jstr p.1, p.2))
    else (parseIntLit cs).map (fun p => (JVal.jnum p.1, p.2))

/-- Parse the members of an object after the opening brace, returning the
member list and the unconsumed remainder.  Fueled by the input length. -/
def parseMembers : Nat → List Char → Option (List (String × JVal) × List Char)
  | 0, _ => none
  | Nat.succ fuel, cs =>
    match parseStrLit (skipWs cs) with
    | none => none
    | some (k, r1) =>
      match skipWs r1 with
      | [] => none
      | c :: r2 =>
        if c = ':' then
          match parseVal (skipWs r2) with
          | none => none
          | some (v, r3) =>
            match skipWs r3 with
            | [] => none
            | c2 :: r4 =>
              if c2 = ',' then
                match parseMembers fuel r4 with
                | none => none
                | some (rest, r5) => some ((k, v) :: rest, r5)
              else if c2 = rbraceChar then some ([(k, v)], r4)
              else none
        else none

/-- Modelled from the spec: the JSON parse used by the command endpoint.
The parser itself (ArduinoJson, shipped as a header next to main.cpp) is
not under src/, so it is modelled after the shape the specification
gives the commands: a flat two-field object with string or integer
members ("parses a two-field command object").  Trailing bytes after the
closing brace are ignored, matching the library behaviour of stopping at
the end of the first document. -/
def deserializeJson (s : String) : Option (List (String × JVal)) :=
  match skipWs s.data with
  | [] => none
  | c :: rest =>
    if c = lbraceChar then
      match skipWs rest with
      | [] => none
      | c2 :: _ =>
        if c2 = rbraceChar then some []
        else (parseMembers (rest.length + 1) rest).map (·.1)
    else none

/-- First member with the given key, as ArduinoJson member access returns it. -/
def getMember (doc : List (String × JVal)) (k : String) : Option JVal :=
  (doc.find? (fun p => p.1 == k)).map (·.2)

/-- The cast (const char*) applied to a member: a string member yields its
text, a numeric member yields a null pointer, which the Arduino String
constructor turns into the empty string. -/
def jvalAsCStr : JVal → String
  | JVal.jstr s => s
  | JVal.jnum _ => ""

/-- The as-int conversion applied to a member.  Only numeric members are
exercised by the claims; a string member is modelled as 0. -/
def jvalAsInt : JVal → Int
  | JVal.jnum n => n
  | JVal.jstr _ => 0

/-! ## Command gateway: normalization (main.cpp lines 101-108, 264-323) -/

/-- Direct translation of map_motion (main.cpp lines 101-108). -/
def map_motion (m : String) : String :=
  if m = "Forward" then "Forward"
  else if m = "Backward" then "Backward"
  else if m = "Left" then "Left"
  else if m = "Right" then "Right"
  else if m = "stop_it" ∨ m = "Stop" then "Stop"
  else "Unknown"

/-- Arduino constrain: amt below low gives low, above high gives high. -/
def constrain (amt low high : Int) : Int :=
  if amt < low then low else if high < amt then high else amt

/-- The bytes send_to_uno (main.cpp lines 55-61) writes to Serial1: the
serialized two-member object followed by a newline. -/
def send_to_uno (motion : String) (speed : Int) : String :=
  "\x7b\"M\":\"" ++ motion ++ "\",\"v\":" ++ toString speed ++ "\x7d" ++ "\n"

/-- LastCommandState: g_last_motion, g_last_speed, g_last_cmd_ms. -/
structure CmdState where
  motion : String
  speed : Int
  tsMs : Nat
deriving DecidableEq, Repr

/-- Everything one completed /cmd POST produces: the resulting
LastCommandState, the HTTP status and body of the reply, and the bytes
forwarded to the UNO over Serial1 (none on a parse error). -/
structure CmdOutcome where
  state : CmdState
  statusCode : Nat
  respBody : String
  unoMsg : Option String
deriving DecidableEq, Repr

/-- The fault-tolerance step of on_cmd_body (main.cpp line 281): a body
not ending in a closing brace has one appended before parsing. -/
def repairBody (body : String) : String :=
  if body.data.getLast? = some rbraceChar then body else body ++ "\x7d"

/-- Translation of the body-complete branch of on_cmd_body (main.cpp
lines 279-322): repair the delimiter, parse, extract motion (keys M then
m, defaulting to Unknown) and speed (keys v then V, defaulting to -1),
clamp the speed into [0,255] after flooring negatives at 0, normalize
the motion tag, forward to the UNO, update LastCommandState and reply
ok; a parse error yields a 400 reply, no forwarding, unchanged state. -/
def on_cmd_body (st : CmdState) (now : Nat) (body : String) : CmdOutcome :=
  match deserializeJson (repairBody body) with
  | none => ⟨st, 400, "\x7b\"ok\":false,\"err\":\"bad json\"\x7d", none⟩
  | some doc =>
    let mVal : String :=
      match getMember doc "M" with
      | some v => jvalAsCStr v
      | none =>
        match getMember doc "m" with
        | some v => jvalAsCStr v
        | none => "Unknown"
    let vRaw : Int :=
      match getMember doc "v" with
      | some v => jvalAsInt v
      | none =>
        match getMember doc "V" with
        | some v => jvalAsInt v
        | none => -1
    let vVal : Int := constrain (if vRaw < 0 then 0 else vRaw) 0 255
    let motionNorm : String := map_motion mVal
    ⟨⟨motionNorm, vVal, now⟩, 200, "\x7b\"ok\":true\x7d",
      some (send_to_uno motionNorm vVal)⟩

/-! ## Frame cache (main.cpp lines 40-47, 110-122, 203-217)

The cache is the pair g_last_jpg/g_last_jpg_len.  The two fields are
always written together, so the model is an optional byte list: none
stands for a null pointer with zero length.  malloc success is an
explicit parameter, and the free/install order of the code is recorded
as an event trace. -/

/-- Heap events of one cache update, in program order. -/
inductive PubEv where
  | freeE (old : List Nat)
  | installE (newFrame : List Nat)
deriving DecidableEq, Repr

/-- Translation of the cache update inside cameraTask (main.cpp lines
205-213, executed after taking g_jpg_mutex): free the previous frame if
any and zero the cache, then malloc; on success copy the new bytes and
set the length.  Returns the new cache value and the heap events in the
order the code performs them. -/
def publish (cache : Option (List Nat)) (newData : List Nat) (allocOk : Bool) :
    Option (List Nat) × List PubEv :=
  match cache with
  | some old =>
    if allocOk then (some newData, [PubEv.freeE old, PubEv.installE newData])
    else (none, [PubEv.freeE old])
  | none =>
    if allocOk then (some newData, [PubEv.installE newData])
    else (none, [])

/-- Translation of copy_last_jpg (main.cpp lines 111-122): take the jpg
mutex with a 10 ms bound (lockOk records whether the take succeeded);
under the lock, copy the cached frame when present and nonempty.  Result
none is the unavailable report (the function returns false). -/
def copy_last_jpg (lockOk : Bool) (cache : Option (List Nat)) : Option (List Nat) :=
  if lockOk then
    match cache with
    | some f => if 0 < f.length then some f else none
    | none => none
  else none

/-- FreeRTOS tick rate of the ESP32 Arduino core (1000 Hz). -/
def configTICK_RATE_HZ : Nat := 1000

/-- FreeRTOS millisecond-to-tick conversion. -/
def pdMS_TO_TICKS (ms : Nat) : Nat := ms * configTICK_RATE_HZ / 1000

/-- FreeRTOS portMAX_DELAY for a 32-bit tick type; passing it to
xSemaphoreTake means block indefinitely, not a finite bound. -/
def portMAX_DELAY : Nat := 4294967295

/-- Tick bound copy_last_jpg passes to xSemaphoreTake (line 113). -/
def snapshotWaitTicks : Nat := pdMS_TO_TICKS 10

/-- Tick bound the cameraTask cache update passes to xSemaphoreTake
(line 205). -/
def publishWaitTicks : Nat := portMAX_DELAY

/-- A semaphore wait is bounded exactly when its tick argument is not
portMAX_DELAY (FreeRTOS semantics of xSemaphoreTake). -/
def boundedWait (t : Nat) : Prop := t ≠ portMAX_DELAY

/-! ## MJPEG streaming (main.cpp lines 27-38, 124-183, 380-411)

A connection is modelled by what the code queries of it: whether it is
still connected and how much outbound buffer space it has.  An
environment maps each connection identity to that record; within one
broadcast pass the environment is fixed. -/

/-- The multipart boundary constant (main.cpp line 28). -/
def BOUNDARY : String := "mjpeg-boundary-0123456789"

/-- What the broadcast code observes of an AsyncClient. -/
structure Conn where
  connected : Bool
  space : Nat

/-- Connection environment: the observable state of every connection,
indexed by connection identity. -/
abbrev Env := Nat → Conn

/-- Bytes of an ASCII string. -/
def strBytes (s : String) : List Nat := s.data.map Char.toNat

/-- The per-frame header built by snprintf in mjpeg_send_frame_to
(main.cpp lines 130-135).  The 128-byte buffer never truncates it: the
fixed text is 75 bytes plus the decimal length. -/
def frameHeader (n : Nat) : String :=
  "--" ++ BOUNDARY ++ "\r\nContent-Type: image/jpeg\r\nContent-Length: " ++
    (toString n ++ "\r\n\r\n")

/-- The complete frame unit: header bytes, payload, trailing CRLF. -/
def frameUnit (jpg : List Nat) : List Nat :=
  strBytes (frameHeader jpg.length) ++ jpg ++ strBytes "\r\n"

/-- Translation of mjpeg_send_frame_to (main.cpp lines 125-143): nothing
is written for a null/disconnected client or an empty frame; otherwise
the whole unit is enqueued only if the available space covers header
plus payload plus the 2-byte trailer, else nothing is written.  The
result is the byte sequence enqueued on the connection. -/
def mjpeg_send_frame_to (conn : Conn) (jpg : List Nat) : List Nat :=
  if !conn.connected then []
  else if jpg.length == 0 then []
  else if (strBytes (frameHeader jpg.length)).length + jpg.length + 2 ≤ conn.space then
    strBytes (frameHeader jpg.length) ++ jpg ++ strBytes "\r\n"
  else []

/-- The one-time stream prologue written for a first-time client
(main.cpp lines 167-172): status line, content type declaring the
boundary parameter as the boundary constant prefixed by two dashes, and
connection-close header. -/
def prologueStr : String :=
  "HTTP/1.1 200 OK\r\nContent-Type: multipart/x-mixed-replace; boundary=--" ++
    BOUNDARY ++ "\r\nConnection: close\r\n\r\n"

/-- The boundary token a receiver reads out of the prologue: the text
after the first boundary= up to the end of that header line. -/
def extractBoundaryToken : List Char → Option (List Char)
  | [] => none
  | c :: cs =>
    if ("boundary=".data).isPrefixOf (c :: cs) then
      some (((c :: cs).drop 9).takeWhile (fun ch => !(ch == '\r')))
    else extractBoundaryToken cs

/-- Follows the words of the spec (section 6) for a refinement
comparison: a frame unit is two dashes, the declared boundary token, the
image headers with the payload length, the payload and a trailing CRLF. -/
def specFrameUnit (tok : String) (jpg : List Nat) : List Nat :=
  strBytes ("--" ++ tok ++ "\r\nContent-Type: image/jpeg\r\nContent-Length: " ++
    (toString jpg.length ++ "\r\n\r\n")) ++ jpg ++ strBytes "\r\n"

/-- Registry entry for one streaming client (main.cpp lines 31-35); the
constructor starts headerSent as false. -/
structure MjpegClient where
  cid : Nat
  headerSent : Bool
deriving DecidableEq, Repr

/-- One unit written to a client: the prologue or one frame unit. -/
inductive Chunk where
  | pro
  | frame (bytes : List Nat)
deriving DecidableEq, Repr

/-- The frame-sending part of the per-client loop body, as chunks: empty
when mjpeg_send_frame_to enqueued nothing. -/
def frameChunks (conn : Conn) (jpg : List Nat) : List Chunk :=
  if (mjpeg_send_frame_to conn jpg).isEmpty then []
  else [Chunk.frame (mjpeg_send_frame_to conn jpg)]

/-- The body of the send loop of mjpeg_broadcast for one client
(main.cpp lines 162-180): skip a dead connection; for a first-time
client write the prologue and mark headerSent before the frame attempt;
then attempt the frame.  Returns the updated entry and the chunks
written to this client, in order. -/
def broadcastClient (conn : Conn) (jpg : List Nat) (mc : MjpegClient) :
    MjpegClient × List Chunk :=
  if conn.connected then
    if mc.headerSent then (mc, frameChunks conn jpg)
    else (⟨mc.cid, true⟩, Chunk.pro :: frameChunks conn jpg)
  else (mc, [])

/-- The dead-client cleanup loop of mjpeg_broadcast (main.cpp lines
150-160): walk the vector, erasing (close plus delete, recorded in the
freed list) every entry whose connection is gone, advancing only past
survivors.  Returns the surviving entries and the freed connection
identities in eviction order. -/
def cleanupLoop (env : Env) : List MjpegClient → List MjpegClient × List Nat
  | [] => ([], [])
  | mc :: rest =>
    if (env mc.cid).connected then
      (mc :: (cleanupLoop env rest).1, (cleanupLoop env rest).2)
    else ((cleanupLoop env rest).1, mc.cid :: (cleanupLoop env rest).2)

/-- The send loop of mjpeg_broadcast (main.cpp lines 162-180) over the
surviving entries, accumulating each written chunk tagged with the
connection it went to. -/
def visitLoop (env : Env) (jpg : List Nat) : List MjpegClient → List MjpegClient × List (Nat × Chunk)
  | [] => ([], [])
  | mc :: rest =>
    ((broadcastClient (env mc.cid) jpg mc).1 :: (visitLoop env jpg rest).1,
     ((broadcastClient (env mc.cid) jpg mc).2).map (fun ch => (mc.cid, ch)) ++
       (visitLoop env jpg rest).2)

/-- Translation of mjpeg_broadcast (main.cpp lines 146-183): if the
10 ms take of g_clients_mutex fails the whole pass is skipped; under the
lock the cleanup loop runs first and the send loop second.  Returns the
new registry, the freed connection identities and the chunk log. -/
def mjpeg_broadcast (env : Env) (jpg : List Nat) (lockOk : Bool)
    (st : List MjpegClient) : List MjpegClient × List Nat × List (Nat × Chunk) :=
  if lockOk then
    ((visitLoop env jpg (cleanupLoop env st).1).1, (cleanupLoop env st).2,
     (visitLoop env jpg (cleanupLoop env st).1).2)
  else (st, [], [])

/-- The scan inside the onDisconnect callback (main.cpp lines 388-395):
find the first registry entry for this connection; if found, close and
delete it and erase the entry. -/
def onDisconnectScan (c : Nat) : List MjpegClient → List MjpegClient × List Nat
  | [] => ([], [])
  | mc :: rest =>
    if mc.cid = c then (rest, [c])
    else (mc :: (onDisconnectScan c rest).1, (onDisconnectScan c rest).2)

/-- Translation of the /mjpeg onDisconnect callback (main.cpp lines
386-401): with the 50 ms take of g_clients_mutex succeeding, scan and
remove under the lock; if the take times out, the fallback branch closes
and deletes the connection without touching the registry. -/
def onDisconnect (c : Nat) (lockOk : Bool) (st : List MjpegClient) :
    List MjpegClient × List Nat :=
  if lockOk then onDisconnectScan c st
  else (st, [c])

/-- The operations that mutate the registry, each carrying the outcome
of its bounded lock acquisition. -/
inductive Op where
  | attach (c : Nat) (lockOk : Bool)
  | disc (c : Nat) (lockOk : Bool)
  | bcast (env : Env) (jpg : List Nat) (lockOk : Bool)

/-- Effect of one operation: the new registry, connections freed, chunks
written.  attach is the /mjpeg handler registration (main.cpp lines
404-407): the entry is appended, headerSent false, only if the lock was
obtained. -/
def applyOp (op : Op) (st : List MjpegClient) :
    List MjpegClient × List Nat × List (Nat × Chunk) :=
  match op with
  | Op.attach c lk => (if lk then st ++ [⟨c, false⟩] else st, [], [])
  | Op.disc c lk => ((onDisconnect c lk st).1, (onDisconnect c lk st).2, [])
  | Op.bcast env jpg lk => mjpeg_broadcast env jpg lk st

/-- Run a sequence of operations, accumulating freed connections and the
chunk log. -/
def runOps : List Op → List MjpegClient → List MjpegClient × List Nat × List (Nat × Chunk)
  | [], st => (st, [], [])
  | op :: rest, st =>
    ((runOps rest (applyOp op st).1).1,
     (applyOp op st).2.1 ++ (runOps rest (applyOp op st).1).2.1,
     (applyOp op st).2.2 ++ (runOps rest (applyOp op st).1).2.2)

/-- Broadcast-only operation sequences, for properties about repeated
broadcast passes. -/
def bcastOps (steps : List (Env × List Nat × Bool)) : List Op :=
  steps.map (fun s => Op.bcast s.1 s.2.1 s.2.2)

/-- The chunks a given connection received, in order. -/
def chunksTo (c : Nat) (log : List (Nat × Chunk)) : List Chunk :=
  (log.filter (fun pr => pr.1 == c)).map (·.2)

/-- No prologue occurs in the chunk list. -/
def noPro (l : List Chunk) : Bool := l.all (fun x => !(x == Chunk.pro))

/-- The chunk list is either empty or starts with the prologue and never
repeats it. -/
def prologueOnceFirst : List Chunk → Bool
  | [] => true
  | ch :: rest => ch == Chunk.pro && noPro rest

/-- Registry entry test for a given connection identity. -/
def hasCid (c : Nat) (mc : MjpegClient) : Bool := mc.cid == c

/-- The headerSent flag of the first registry entry for a connection,
none when the connection is not registered. -/
def clientFlag (c : Nat) (l : List MjpegClient) : Option Bool :=
  (l.find? (hasCid c)).map (·.headerSent)

/-- Observable ordering events of one broadcast pass. -/
inductive BEv where
  | removedE (c : Nat)
  | visitedE (c : Nat)
deriving DecidableEq, Repr

/-- Event test for a removal. -/
def isRemovedEv : BEv → Bool
  | BEv.removedE _ => true
  | BEv.visitedE _ => false

/-- Event test for a send-loop visit. -/
def isVisitedEv : BEv → Bool
  | BEv.removedE _ => false
  | BEv.visitedE _ => true

/-- The event order of one locked broadcast pass: the cleanup loop
(statement one of the function body) emits its removals, then the send
loop (statement two) visits each survivor. -/
def broadcastTrace (env : Env) (st : List MjpegClient) : List BEv :=
  (cleanupLoop env st).2.map BEv.removedE ++
    (cleanupLoop env st).1.map (fun mc => BEv.visitedE mc.cid)

/-- Holds when no removal event is followed by a visit event, the order
the claim asserts (removal only after the full iteration pass). -/
def removalsAfterVisits : List BEv → Bool
  | [] => true
  | e :: rest =>
    (!(isRemovedEv e) || rest.all (fun x => !(isVisitedEv x))) && removalsAfterVisits rest

/-- Holds when no visit event is followed by a removal event: all
removals precede all visits. -/
def removalsBeforeVisits : List BEv → Bool
  | [] => true
  | e :: rest =>
    (!(isVisitedEv e) || rest.all (fun x => !(isRemovedEv x))) && removalsBeforeVisits rest

/-! ## Helper lemmas -/

/-- The cleanup loop keeps exactly the connected entries, in order, and
frees exactly the dead ones, in order. -/
theorem cleanupLoop_eq (env : Env) (l : List MjpegClient) :
    cleanupLoop env l =
      (l.filter (fun mc => (env mc.cid).connected),
       (l.filter (fun mc => !(env mc.cid).connected)).map (·.cid)) := by
  induction l with
  | nil => rfl
  | cons mc rest ih =>
    simp only [cleanupLoop, ih, List.filter_cons]
    cases h : (env mc.cid).connected <;> simp [h]

/-- The length of a frame unit is header length plus payload length plus
the 2-byte trailer. -/
theorem frameUnit_length (jpg : List Nat) :
    (frameUnit jpg).length = (strBytes (frameHeader jpg.length)).length + jpg.length + 2 := by
  have h2 : (strBytes "\r\n").length = 2 := rfl
  simp only [frameUnit, List.length_append, h2]

/-- A nonempty list has nonzero length, as a boolean test. -/
theorem length_beq_zero_false {jpg : List Nat} (h : jpg ≠ []) :
    (jpg.length == 0) = false := by
  cases jpg with
  | nil => exact absurd rfl h
  | cons a t => simp

/-- With insufficient space the send attempt writes nothing. -/
theorem send_frame_skip (space : Nat) (jpg : List Nat) (h : jpg ≠ [])
    (hs : space < (frameUnit jpg).length) :
    mjpeg_send_frame_to ⟨true, space⟩ jpg = [] := by
  have hl := frameUnit_length jpg
  unfold mjpeg_send_frame_to
  simp only [Bool.not_true, Bool.false_eq_true, if_false, length_beq_zero_false h]
  rw [if_neg]
  omega

/-- With sufficient space the send attempt enqueues the whole unit. -/
theorem send_frame_fits (space : Nat) (jpg : List Nat) (h : jpg ≠ [])
    (hs : (frameUnit jpg).length ≤ space) :
    mjpeg_send_frame_to ⟨true, space⟩ jpg = frameUnit jpg := by
  have hl := frameUnit_length jpg
  unfold mjpeg_send_frame_to
  simp only [Bool.not_true, Bool.false_eq_true, if_false, length_beq_zero_false h]
  rw [if_pos]
  · rfl
  · omega

/-- The code frame unit coincides with the spec template instantiated at
the bare boundary constant. -/
theorem specFrameUnit_boundary (jpg : List Nat) :
    specFrameUnit BOUNDARY jpg = frameUnit jpg := rfl

/-- The boundary parameter the prologue declares is the boundary constant
prefixed by two dashes. -/
theorem boundary_token_extract :
    extractBoundaryToken prologueStr.data = some (("--" ++ BOUNDARY).data) := by decide

/-! ## C2: publish frees before install; alloc failure empties the cache -/

/-- C2 counterexample: at the concrete cache holding bytes 1,2,3, a
publish performs the free of the old frame as its first heap event, i.e.
before the install, and a publish whose allocation fails does not leave
the previous frame intact. -/
theorem c2_counterexample_free_precedes_install :
    (publish (some [1, 2, 3]) [7, 7] true).2.head? = some (PubEv.freeE [1, 2, 3]) ∧
    (publish (some [1, 2, 3]) [7, 7] false).1 ≠ some [1, 2, 3] := by decide

/-- C2 amended: publish frees the previous frame before allocating the
new one (the free is the first heap event); on allocation success the
new frame is installed; on allocation failure the cache is left empty —
not the previous frame — with the failure internal-only, and a snapshot
taken afterwards reports unavailable rather than seeing a corrupt cache. -/
theorem c2_publish_free_then_alloc (old newData : List Nat) :
    (publish (some old) newData true).1 = some newData ∧
    (publish (some old) newData true).2 = [PubEv.freeE old, PubEv.installE newData] ∧
    (publish (some old) newData false).1 = none ∧
    copy_last_jpg true (publish (some old) newData false).1 = none :=
  ⟨rfl, rfl, rfl, rfl⟩

/-! ## C3: snapshot wait is bounded, publish wait is not -/

/-- C3 counterexample: the cache update in cameraTask takes the jpg
mutex with portMAX_DELAY, which is not a bounded wait. -/
theorem c3_counterexample_publish_wait_unbounded :
    ¬ boundedWait publishWaitTicks := fun h => h rfl

/-- C3 amended: the snapshot side behaves as claimed — copy_last_jpg
takes the mutex with a bounded 10-tick (10 ms) wait and reports
unavailable when the lock is not obtained — but the publish side takes
the mutex with portMAX_DELAY, an unbounded wait, and is never skipped on
contention. -/
theorem c3_snapshot_bounded_publish_unbounded :
    boundedWait snapshotWaitTicks ∧ snapshotWaitTicks = 10 ∧
    (∀ cache, copy_last_jpg false cache = none) ∧
    publishWaitTicks = portMAX_DELAY :=
  ⟨by unfold boundedWait snapshotWaitTicks pdMS_TO_TICKS configTICK_RATE_HZ portMAX_DELAY; decide,
   rfl, fun _ => rfl, rfl⟩

/-! ## C5: all-or-nothing frame delivery per client -/

/-- C5: for a connected client and a nonempty frame, when the available
space is below the size of the whole unit (header, payload, trailer)
nothing at all is written, and when the space suffices the entire unit
is enqueued. -/
theorem c5_frame_all_or_nothing (space : Nat) (jpg : List Nat) (h : jpg ≠ []) :
    (space < (frameUnit jpg).length → mjpeg_send_frame_to ⟨true, space⟩ jpg = []) ∧
    ((frameUnit jpg).length ≤ space → mjpeg_send_frame_to ⟨true, space⟩ jpg = frameUnit jpg) :=
  ⟨send_frame_skip space jpg h, send_frame_fits space jpg h⟩

/-- C5 witness: with a 79-byte unit for the one-byte frame 65, space 3
writes nothing and space 10000 writes the whole unit. -/
theorem c5_frame_all_or_nothing_witness :
    ([65] ≠ ([] : List Nat)) ∧
    (3 < (frameUnit [65]).length ∧ mjpeg_send_frame_to ⟨true, 3⟩ [65] = []) ∧
    ((frameUnit [65]).length ≤ 10000 ∧
      mjpeg_send_frame_to ⟨true, 10000⟩ [65] = frameUnit [65]) :=
  ⟨by decide,
   ⟨by decide, (c5_frame_all_or_nothing 3 [65] (by decide)).1 (by decide)⟩,
   ⟨by decide, (c5_frame_all_or_nothing 10000 [65] (by decide)).2 (by decide)⟩⟩

/-! ## C7: frame unit framing versus the declared boundary token -/

/-- C7 counterexample: the boundary token declared in the prologue is
the boundary constant already prefixed with two dashes, and the frame
unit written for the concrete one-byte frame 42 is not of the form two
dashes followed by that declared token — so the unit is not the claimed
shape with respect to the declared token. -/
theorem c7_counterexample_declared_token :
    extractBoundaryToken prologueStr.data = some (("--" ++ BOUNDARY).data) ∧
    mjpeg_send_frame_to ⟨true, 10000⟩ [42] ≠ specFrameUnit ("--" ++ BOUNDARY) [42] := by
  constructor
  · decide
  · decide

/-- C7 amended: every delivered frame unit has exactly the multipart
shape of the spec template instantiated with the bare boundary constant,
while the prologue declares the boundary parameter as that constant
prefixed by two dashes — the part delimiter equals the declared token
itself rather than the declared token with two more dashes. -/
theorem c7_frame_unit_form (jpg : List Nat) (space : Nat) (h1 : jpg ≠ [])
    (h2 : (frameUnit jpg).length ≤ space) :
    mjpeg_send_frame_to ⟨true, space⟩ jpg = specFrameUnit BOUNDARY jpg ∧
    extractBoundaryToken prologueStr.data = some (("--" ++ BOUNDARY).data) :=
  ⟨(send_frame_fits space jpg h1 h2).trans (specFrameUnit_boundary jpg).symm,
   boundary_token_extract⟩

/-- C7 witness: the one-byte frame 42 with ample space. -/
theorem c7_frame_unit_form_witness :
    ([42] ≠ ([] : List Nat)) ∧ (frameUnit [42]).length ≤ 10000 ∧
    mjpeg_send_frame_to ⟨true, 10000⟩ [42] = specFrameUnit BOUNDARY [42] :=
  ⟨by decide, by decide, (c7_frame_unit_form [42] 10000 (by decide) (by decide)).1⟩

/-! ## C9: parse failure answers 400 and leaves everything unchanged -/

/-- C9: when the (repaired) body fails to parse, the command endpoint
replies 400 with the diagnostic body, forwards nothing to the serial
link, and LastCommandState is exactly what it was. -/
theorem c9_parse_error_leaves_state (st : CmdState) (now : Nat) (body : String)
    (h : deserializeJson (repairBody body) = none) :
    on_cmd_body st now body =
      ⟨st, 400, "\x7b\"ok\":false,\"err\":\"bad json\"\x7d", none⟩ := by
  unfold on_cmd_body
  rw [h]

/-- C9 witness: the unparsable body bad with a concrete prior state. -/
theorem c9_parse_error_leaves_state_witness :
    deserializeJson (repairBody "bad") = none ∧
    on_cmd_body ⟨"Stop", 0, 0⟩ 3 "bad" =
      ⟨⟨"Stop", 0, 0⟩, 400, "\x7b\"ok\":false,\"err\":\"bad json\"\x7d", none⟩ :=
  ⟨by decide, c9_parse_error_leaves_state ⟨"Stop", 0, 0⟩ 3 "bad" (by decide)⟩

/-! ## C8: command normalization -/

/-- C8: the command endpoint repairs a body missing its closing brace by
appending one before parsing (so the truncated Left command parses the
same as the complete one); the Left command with speed 999 normalizes to
motion Left with speed clamped to 255; a lowercase left command without
a numeric speed field yields speed 0; a Sideways command normalizes to
the Unknown tag and is still answered ok rather than rejected; and every
accepted request is forwarded to the serial link as the fixed two-field
wire object of its normalized motion and speed, with LastCommandState
stamped at the request time. -/
theorem c8_command_normalization (st : CmdState) (now : Nat) :
    (∀ body : String, body.data.getLast? ≠ some rbraceChar →
      repairBody body = body ++ "\x7d") ∧
    (on_cmd_body st now "\x7b\"M\":\"Left\",\"v\":999" =
      on_cmd_body st now "\x7b\"M\":\"Left\",\"v\":999\x7d") ∧
    ((on_cmd_body st now "\x7b\"M\":\"Left\",\"v\":999\x7d").state = ⟨"Left", 255, now⟩ ∧
     (on_cmd_body st now "\x7b\"M\":\"Left\",\"v\":999\x7d").unoMsg =
       some (send_to_uno "Left" 255)) ∧
    ((on_cmd_body st now "\x7b\"m\":\"left\"\x7d").state.speed = 0) ∧
    ((on_cmd_body st now "\x7b\"M\":\"Sideways\"\x7d").state.motion = "Unknown" ∧
     (on_cmd_body st now "\x7b\"M\":\"Sideways\"\x7d").statusCode = 200 ∧
     (on_cmd_body st now "\x7b\"M\":\"Sideways\"\x7d").respBody = "\x7b\"ok\":true\x7d") ∧
    (∀ (body : String) (doc : List (String × JVal)),
      deserializeJson (repairBody body) = some doc →
      (on_cmd_body st now body).statusCode = 200 ∧
      (on_cmd_body st now body).unoMsg =
        some (send_to_uno (on_cmd_body st now body).state.motion
          (on_cmd_body st now body).state.speed) ∧
      (on_cmd_body st now body).state.tsMs = now) := by
  refine ⟨?_, rfl, ⟨rfl, rfl⟩, rfl, ⟨rfl, rfl, rfl⟩, ?_⟩
  · intro body hb
    unfold repairBody
    rw [if_neg hb]
  · intro body doc h
    unfold on_cmd_body
    rw [h]
    exact ⟨rfl, rfl, rfl⟩

/-- C8 witness: concrete prior state Stop 0 at time 5; the truncated
body does not end in a closing brace and is repaired; the complete Left
command parses to the two-member document and the general acceptance
conjunct applies to it. -/
theorem c8_command_normalization_witness :
    ("\x7bx".data.getLast? ≠ some rbraceChar ∧
      repairBody "\x7bx" = "\x7bx" ++ "\x7d") ∧
    (on_cmd_body ⟨"Stop", 0, 0⟩ 5 "\x7b\"M\":\"Left\",\"v\":999\x7d").state =
      ⟨"Left", 255, 5⟩ ∧
    (deserializeJson (repairBody "\x7b\"M\":\"Left\",\"v\":999\x7d") =
      some [("M", JVal.jstr "Left"), ("v", JVal.jnum 999)] ∧
     (on_cmd_body ⟨"Stop", 0, 0⟩ 5 "\x7b\"M\":\"Left\",\"v\":999\x7d").statusCode = 200 ∧
     (on_cmd_body ⟨"Stop", 0, 0⟩ 5 "\x7b\"M\":\"Left\",\"v\":999\x7d").unoMsg =
       some (send_to_uno "Left" 255)) := by
  have h := c8_command_normalization ⟨"Stop", 0, 0⟩ 5
  refine ⟨⟨by decide, h.1 "\x7bx" (by decide)⟩, (h.2.2.1).1, by decide,
    (h.2.2.2.2.2 "\x7b\"M\":\"Left\",\"v\":999\x7d"
      [("M", JVal.jstr "Left"), ("v", JVal.jnum 999)] (by decide)).1, ?_⟩
  have h2 := (h.2.2.2.2.2 "\x7b\"M\":\"Left\",\"v\":999\x7d"
      [("M", JVal.jstr "Left"), ("v", JVal.jnum 999)] (by decide)).2.1
  rw [h2]
  rfl

/-! ## C10: motion-tag normalization is exact and case-sensitive -/

/-- C10: map_motion recognizes exactly the six spellings Forward,
Backward, Left, Right, Stop and stop_it, case-sensitively; every other
string maps to Unknown.  A lowercase left command therefore normalizes
to Unknown, and so does a request with no motion key at all; both are
still accepted, forwarded to the serial link and recorded. -/
theorem c10_motion_tag_exact (st : CmdState) (now : Nat) :
    (map_motion "Forward" = "Forward" ∧ map_motion "Backward" = "Backward" ∧
     map_motion "Left" = "Left" ∧ map_motion "Right" = "Right" ∧
     map_motion "Stop" = "Stop" ∧ map_motion "stop_it" = "Stop") ∧
    (∀ s : String, s ≠ "Forward" → s ≠ "Backward" → s ≠ "Left" → s ≠ "Right" →
      s ≠ "Stop" → s ≠ "stop_it" → map_motion s = "Unknown") ∧
    ((on_cmd_body st now "\x7b\"m\":\"left\"\x7d").state.motion = "Unknown" ∧
     (on_cmd_body st now "\x7b\"m\":\"left\"\x7d").statusCode = 200 ∧
     (on_cmd_body st now "\x7b\"m\":\"left\"\x7d").unoMsg =
       some (send_to_uno "Unknown" 0)) ∧
    ((on_cmd_body st now "\x7b\x7d").state.motion = "Unknown" ∧
     (on_cmd_body st now "\x7b\x7d").statusCode = 200 ∧
     (on_cmd_body st now "\x7b\x7d").unoMsg = some (send_to_uno "Unknown" 0)) := by
  refine ⟨⟨rfl, rfl, rfl, rfl, rfl, rfl⟩, ?_, ⟨rfl, rfl, rfl⟩, ⟨rfl, rfl, rfl⟩⟩
  intro s h1 h2 h3 h4 h5 h6
  unfold map_motion
  rw [if_neg h1, if_neg h2, if_neg h3, if_neg h4, if_neg (fun hc => hc.elim h6 h5)]

/-- C10 witness: the lowercase spelling left is not among the six
recognized spellings and maps to Unknown; the empty object, with no
motion key, is accepted with motion Unknown. -/
theorem c10_motion_tag_exact_witness :
    map_motion "left" = "Unknown" ∧
    (on_cmd_body ⟨"Stop", 0, 0⟩ 5 "\x7b\x7d").state.motion = "Unknown" ∧
    (on_cmd_body ⟨"Stop", 0, 0⟩ 5 "\x7b\x7d").unoMsg = some (send_to_uno "Unknown" 0) := by
  have h := c10_motion_tag_exact ⟨"Stop", 0, 0⟩ 5
  exact ⟨h.2.1 "left" (by decide) (by decide) (by decide) (by decide) (by decide) (by decide),
    (h.2.2.2).1, (h.2.2.2).2.2⟩

/-! ## C4: where in the broadcast pass dead clients are removed -/

/-- Concatenating a block with no visit events and a block with no
removal events puts every removal before every visit. -/
theorem removalsBeforeVisits_append (A B : List BEv)
    (hA : ∀ e ∈ A, isVisitedEv e = false) (hB : ∀ e ∈ B, isRemovedEv e = false) :
    removalsBeforeVisits (A ++ B) = true := by
  induction A with
  | nil =>
    induction B with
    | nil => rfl
    | cons b bs ih =>
      have hb := hB b (List.mem_cons_self b bs)
      have hbs : bs.all (fun x => !(isRemovedEv x)) = true := by
        simp only [List.all_eq_true]
        intro x hx
        simp [hB x (List.mem_cons_of_mem b hx)]
      have h3 := ih (fun e he => hB e (List.mem_cons_of_mem b he))
      simp only [List.nil_append] at h3
      simp [removalsBeforeVisits, hbs, h3]
  | cons a as ih =>
    have ha := hA a (List.mem_cons_self a as)
    simp [removalsBeforeVisits, ha,
      ih (fun e he => hA e (List.mem_cons_of_mem a he))]

/-- C4 counterexample: a registry with the dead connection 0 and the
live connection 1.  The broadcast pass emits the removal of 0 before the
visit of 1: the removal happens in a sweep that precedes the iteration
over live clients, so it is not the case that dead clients are removed
only after the full iteration pass. -/
theorem c4_counterexample_removal_precedes_visit :
    broadcastTrace (fun c => if c == 0 then ⟨false, 0⟩ else ⟨true, 1000⟩)
        [⟨0, false⟩, ⟨1, false⟩] = [BEv.removedE 0, BEv.visitedE 1] ∧
    removalsAfterVisits (broadcastTrace (fun c => if c == 0 then ⟨false, 0⟩ else ⟨true, 1000⟩)
        [⟨0, false⟩, ⟨1, false⟩]) = false := by
  constructor
  · decide
  · decide

/-- C4 amended: the broadcast pass, under the registry lock, first runs
a cleanup sweep that removes (closes, deletes, erases) exactly the
entries whose connection is gone, in registry order, and only then
iterates exactly the surviving connected entries to send; every removal
event therefore precedes every visit event, the opposite order to the
one claimed. -/
theorem c4_cleanup_sweep_precedes_send (env : Env) (st : List MjpegClient) :
    broadcastTrace env st =
      (st.filter (fun mc => !(env mc.cid).connected)).map
        (fun mc => BEv.removedE mc.cid) ++
      (st.filter (fun mc => (env mc.cid).connected)).map
        (fun mc => BEv.visitedE mc.cid) ∧
    removalsBeforeVisits (broadcastTrace env st) = true := by
  have htr : broadcastTrace env st =
      (st.filter (fun mc => !(env mc.cid).connected)).map
        (fun mc => BEv.removedE mc.cid) ++
      (st.filter (fun mc => (env mc.cid).connected)).map
        (fun mc => BEv.visitedE mc.cid) := by
    unfold broadcastTrace
    rw [cleanupLoop_eq]
    simp [List.map_map, Function.comp]
  refine ⟨htr, ?_⟩
  rw [htr]
  refine removalsBeforeVisits_append _ _ ?_ ?_
  · intro e he
    simp only [List.mem_map] at he
    obtain ⟨mc, _, hmc⟩ := he
    rw [← hmc]
    rfl
  · intro e he
    simp only [List.mem_map] at he
    obtain ⟨mc, _, hmc⟩ := he
    rw [← hmc]
    rfl

/-! ## C1: removal and release accounting across the two detection paths -/

/-- Visiting a client never changes its connection identity. -/
theorem broadcastClient_cid (conn : Conn) (jpg : List Nat) (mc : MjpegClient) :
    ((broadcastClient conn jpg mc).1).cid = mc.cid := by
  cases h : conn.connected <;> cases h2 : mc.headerSent <;>
    simp [broadcastClient, h, h2]

/-- The send loop preserves how many entries a connection has. -/
theorem visitLoop_clients_countP (env : Env) (jpg : List Nat) (c : Nat)
    (l : List MjpegClient) :
    ((visitLoop env jpg l).1).countP (hasCid c) = l.countP (hasCid c) := by
  induction l with
  | nil => rfl
  | cons mc rest ih =>
    have hc : hasCid c ((broadcastClient (env mc.cid) jpg mc).1) = hasCid c mc := by
      unfold hasCid
      rw [broadcastClient_cid]
    simp only [visitLoop, List.countP_cons, ih, hc]

/-- The disconnect-callback scan over a registry without the connection
finds nothing: the registry is unchanged and nothing is released. -/
theorem onDisconnectScan_absent (c : Nat) (l : List MjpegClient)
    (h : l.countP (hasCid c) = 0) : onDisconnectScan c l = (l, []) := by
  induction l with
  | nil => rfl
  | cons mc rest ih =>
    rw [List.countP_cons] at h
    cases hx : hasCid c mc
    · rw [hx] at h
      simp only [Bool.false_eq_true, if_false, Nat.add_zero] at h
      have hne : mc.cid ≠ c := by
        intro he
        simp [hasCid, he] at hx
      unfold onDisconnectScan
      rw [if_neg hne, ih h]
    · rw [hx] at h
      simp at h

/-- The disconnect-callback scan over a registry holding the connection
exactly once releases it exactly once and leaves no entry for it. -/
theorem onDisconnectScan_found (c : Nat) (l : List MjpegClient)
    (h : l.countP (hasCid c) = 1) :
    (onDisconnectScan c l).2 = [c] ∧
    ((onDisconnectScan c l).1).countP (hasCid c) = 0 := by
  induction l with
  | nil => simp at h
  | cons mc rest ih =>
    rw [List.countP_cons] at h
    cases hx : hasCid c mc
    · rw [hx] at h
      simp only [Bool.false_eq_true, if_false, Nat.add_zero] at h
      have hne : mc.cid ≠ c := by
        intro he
        simp [hasCid, he] at hx
      have hr := ih h
      unfold onDisconnectScan
      rw [if_neg hne]
      refine ⟨hr.1, ?_⟩
      rw [List.countP_cons, hx]
      simp [hr.2]
    · rw [hx] at h
      simp only [if_true, if_pos] at h
      have h0 : rest.countP (hasCid c) = 0 := by omega
      have heq : mc.cid = c := by simpa [hasCid] using hx
      unfold onDisconnectScan
      rw [if_pos heq]
      exact ⟨rfl, h0⟩

/-- Counting a connection identity over projected identities is counting
its registry entries. -/
theorem countP_map_cid (l : List MjpegClient) (c : Nat) :
    (l.map (·.cid)).countP (fun x => x == c) = l.countP (hasCid c) := by
  induction l with
  | nil => rfl
  | cons mc rest ih => simp only [List.map_cons, List.countP_cons, ih]; rfl

/-- The cleanup sweep never releases a connection more often than it is
registered. -/
theorem cleanup_freed_countP_le (env : Env) (c : Nat) (l : List MjpegClient) :
    ((cleanupLoop env l).2).countP (fun x => x == c) ≤ l.countP (hasCid c) := by
  rw [cleanupLoop_eq]
  simp only
  rw [countP_map_cid, List.countP_filter]
  exact List.countP_mono_left (fun x _ hx => (Bool.and_elim_left hx))

/-- For a dead connection, the cleanup sweep releases it exactly as many
times as it is registered. -/
theorem cleanup_dead_freed_countP (env : Env) (c : Nat) (l : List MjpegClient)
    (h : (env c).connected = false) :
    ((cleanupLoop env l).2).countP (fun x => x == c) = l.countP (hasCid c) := by
  rw [cleanupLoop_eq]
  simp only
  rw [countP_map_cid, List.countP_filter]
  refine List.countP_congr (fun x _ => ?_)
  cases hx : hasCid c x
  · simp
  · have heq : x.cid = c := by simpa [hasCid] using hx
    rw [heq, h]
    simp [hasCid, heq]

/-- For a dead connection, no entry for it survives the cleanup sweep. -/
theorem cleanup_dead_survivors_countP (env : Env) (c : Nat) (l : List MjpegClient)
    (h : (env c).connected = false) :
    ((cleanupLoop env l).1).countP (hasCid c) = 0 := by
  rw [cleanupLoop_eq]
  simp only
  rw [List.countP_filter, List.countP_eq_zero]
  intro a _ hcon
  have h1 := (Bool.and_eq_true _ _).mp hcon
  have heq : a.cid = c := by simpa [hasCid] using h1.1
  rw [heq, h] at h1
  exact Bool.false_ne_true h1.2

/-- A locked cleanup sweep never increases the entry count of a
connection. -/
theorem cleanup_survivors_countP_le (env : Env) (c : Nat) (l : List MjpegClient) :
    ((cleanupLoop env l).1).countP (hasCid c) ≤ l.countP (hasCid c) := by
  rw [cleanupLoop_eq]
  simp only
  rw [List.countP_filter]
  exact List.countP_mono_left (fun x _ hx => (Bool.and_elim_left hx))

/-- C1 counterexample: registry holding connection 0 once, already
disconnected.  Interleaving: the disconnect callback fires but its 50 ms
lock acquisition times out, so its fallback closes and deletes the
connection without deregistering it; the next locked broadcast pass then
finds the stale entry dead and releases it again.  The connection is
released twice, not once. -/
theorem c1_counterexample_double_release :
    ((runOps [Op.disc 0 false, Op.bcast (fun _ => ⟨false, 0⟩) [1] true]
        [⟨0, false⟩]).2.1).count 0 = 2 := by decide

/-- C1 amended: provided each detection path acquires the registry lock
within its bounded wait, a connection registered exactly once and now
dead is removed and released exactly once whichever path runs first —
callback then broadcast, or broadcast then callback — and a locked
removal attempt for a connection absent from the registry is a no-op
that releases nothing. -/
theorem c1_single_release_under_lock (st : List MjpegClient) (c : Nat) (env : Env)
    (jpg : List Nat)
    (h1 : st.countP (hasCid c) = 1)
    (h2 : (env c).connected = false) :
    (((runOps [Op.disc c true, Op.bcast env jpg true] st).2.1).countP (fun x => x == c) = 1 ∧
     ((runOps [Op.disc c true, Op.bcast env jpg true] st).1).countP (hasCid c) = 0) ∧
    (((runOps [Op.bcast env jpg true, Op.disc c true] st).2.1).countP (fun x => x == c) = 1 ∧
     ((runOps [Op.bcast env jpg true, Op.disc c true] st).1).countP (hasCid c) = 0) ∧
    (∀ st2 : List MjpegClient, st2.countP (hasCid c) = 0 →
      onDisconnect c true st2 = (st2, [])) := by
  obtain ⟨hs2, hs1⟩ := onDisconnectScan_found c st h1
  refine ⟨?_, ?_, fun st2 hz => by unfold onDisconnect; rw [if_pos, onDisconnectScan_absent c st2 hz]; exact rfl⟩
  · -- callback first, then broadcast
    simp only [runOps, applyOp, onDisconnect, if_pos, mjpeg_broadcast,
      List.append_nil, List.countP_append]
    rw [hs2]
    have hfree := cleanup_freed_countP_le env c (onDisconnectScan c st).1
    rw [hs1] at hfree
    have hsur := cleanup_survivors_countP_le env c (onDisconnectScan c st).1
    rw [hs1] at hsur
    constructor
    · have : ((cleanupLoop env (onDisconnectScan c st).1).2).countP (fun x => x == c) = 0 :=
        Nat.le_zero.mp hfree
      simp [this]
    · rw [visitLoop_clients_countP]
      exact Nat.le_zero.mp hsur
  · -- broadcast first, then callback
    simp only [runOps, applyOp, onDisconnect, if_pos, mjpeg_broadcast,
      List.append_nil, List.countP_append]
    have hdead0 : ((cleanupLoop env st).1).countP (hasCid c) = 0 :=
      cleanup_dead_survivors_countP env c st h2
    have hvz : ((visitLoop env jpg (cleanupLoop env st).1).1).countP (hasCid c) = 0 := by
      rw [visitLoop_clients_countP]
      exact hdead0
    rw [onDisconnectScan_absent c _ hvz]
    constructor
    · rw [cleanup_dead_freed_countP env c st h2, h1]
      simp
    · exact hvz

/-- C1 witness: the singleton registry for dead connection 0 with both
paths running under the lock in either order. -/
theorem c1_single_release_under_lock_witness :
    (([⟨0, false⟩] : List MjpegClient).countP (hasCid 0) = 1 ∧
     ((fun _ => ⟨false, 0⟩ : Env) 0).connected = false) ∧
    ((runOps [Op.disc 0 true, Op.bcast (fun _ => ⟨false, 0⟩) [1] true]
        [⟨0, false⟩]).2.1).countP (fun x => x == 0) = 1 ∧
    ((runOps [Op.bcast (fun _ => ⟨false, 0⟩) [1] true, Op.disc 0 true]
        [⟨0, false⟩]).2.1).countP (fun x => x == 0) = 1 := by
  have h := c1_single_release_under_lock [⟨0, false⟩] 0 (fun _ => ⟨false, 0⟩) [1]
    (by decide) rfl
  exact ⟨⟨by decide, rfl⟩, h.1.1, h.2.1.1⟩

/-! ## C6: the stream prologue is first and exactly once -/

/-- Filtering by a predicate implied by the search predicate does not
change the first match. -/
theorem find?_filter_of_imp {α : Type} (l : List α) (p q : α → Bool)
    (h : ∀ x, p x = true → q x = true) :
    (l.filter q).find? p = l.find? p := by
  induction l with
  | nil => rfl
  | cons a rest ih =>
    cases hq : q a
    · have hp : p a = false := by
        cases hpa : p a
        · rfl
        · rw [h a hpa] at hq
          exact absurd hq (by simp)
      rw [List.filter_cons, if_neg (by simp [hq]), ih,
        List.find?_cons_of_neg _ (by simp [hp])]
    · rw [List.filter_cons, if_pos (by simp [hq])]
      cases hpa : p a
      · rw [List.find?_cons_of_neg _ (by simp [hpa]),
          List.find?_cons_of_neg _ (by simp [hpa]), ih]
      · rw [List.find?_cons_of_pos _ (by simp [hpa]),
          List.find?_cons_of_pos _ (by simp [hpa])]

/-- Chunk accounting distributes over concatenated logs. -/
theorem chunksTo_append (c : Nat) (a b : List (Nat × Chunk)) :
    chunksTo c (a ++ b) = chunksTo c a ++ chunksTo c b := by
  simp [chunksTo, List.filter_append]

/-- A log addressed entirely to the connection is recovered whole. -/
theorem chunksTo_map_self (c : Nat) (chs : List Chunk) :
    chunksTo c (chs.map (fun ch => (c, ch))) = chs := by
  induction chs with
  | nil => rfl
  | cons ch rest ih =>
    simp only [List.map_cons, chunksTo, List.filter_cons] at ih ⊢
    rw [if_pos (by simp)]
    simp only [List.map_cons]
    rw [ih]

/-- A log addressed entirely to a different connection contributes
nothing. -/
theorem chunksTo_map_other {d c : Nat} (h : d ≠ c) (chs : List Chunk) :
    chunksTo c (chs.map (fun ch => (d, ch))) = [] := by
  induction chs with
  | nil => rfl
  | cons ch rest ih =>
    simp only [List.map_cons, chunksTo, List.filter_cons] at ih ⊢
    rw [if_neg (by simp [h]), ih]

/-- The send loop writes nothing to an unregistered connection. -/
theorem visitLoop_chunks_absent (env : Env) (jpg : List Nat) (c : Nat)
    (l : List MjpegClient) (h : l.countP (hasCid c) = 0) :
    chunksTo c (visitLoop env jpg l).2 = [] := by
  induction l with
  | nil => rfl
  | cons mc rest ih =>
    rw [List.countP_cons] at h
    cases hx : hasCid c mc
    · rw [hx] at h
      simp only [Bool.false_eq_true, if_false, Nat.add_zero] at h
      have hne : mc.cid ≠ c := by
        intro he
        simp [hasCid, he] at hx
      simp only [visitLoop]
      rw [chunksTo_append, chunksTo_map_other hne, ih h, List.append_nil]
    · rw [hx] at h
      simp at h

/-- The send loop over a registry holding the connection exactly once
writes to it exactly what the per-client body writes for its entry, and
afterwards the first entry for the connection is that entry as updated
by the per-client body. -/
theorem visitLoop_chunks_found (env : Env) (jpg : List Nat) (c : Nat)
    (l : List MjpegClient) (mc : MjpegClient)
    (h1 : l.countP (hasCid c) ≤ 1) (h2 : l.find? (hasCid c) = some mc) :
    chunksTo c (visitLoop env jpg l).2 = (broadcastClient (env c) jpg mc).2 ∧
    ((visitLoop env jpg l).1).find? (hasCid c) =
      some ((broadcastClient (env c) jpg mc).1) := by
  induction l with
  | nil => simp at h2
  | cons a rest ih =>
    rw [List.countP_cons] at h1
    cases hx : hasCid c a
    · have hne : a.cid ≠ c := by
        intro he
        simp [hasCid, he] at hx
      have h2r : rest.find? (hasCid c) = some mc := by
        rw [List.find?_cons_of_neg _ (by simp [hx])] at h2
        exact h2
      have h1r : rest.countP (hasCid c) ≤ 1 := by
        rw [hx] at h1
        simpa using h1
      have hr := ih h1r h2r
      constructor
      · simp only [visitLoop]
        rw [chunksTo_append, chunksTo_map_other hne, hr.1, List.nil_append]
      · simp only [visitLoop]
        rw [List.find?_cons_of_neg, hr.2]
        simp only [hasCid, broadcastClient_cid]
        simp [hasCid] at hx
        simp [hx]
    · have heq : a.cid = c := by simpa [hasCid] using hx
      have hamc : a = mc := by
        rw [List.find?_cons_of_pos _ (by simp [hx])] at h2
        exact Option.some.inj h2
      have h0 : rest.countP (hasCid c) = 0 := by
        rw [hx] at h1
        simp only [if_pos, if_true] at h1
        omega
      constructor
      · simp only [visitLoop]
        rw [chunksTo_append, heq, chunksTo_map_self,
          visitLoop_chunks_absent env jpg c rest h0, List.append_nil, hamc]
      · simp only [visitLoop]
        rw [List.find?_cons_of_pos, heq, hamc]
        simp only [hasCid, broadcastClient_cid]
        simp [heq]

/-- Frame-only output contains no prologue. -/
theorem noPro_frameChunks (conn : Conn) (jpg : List Nat) :
    noPro (frameChunks conn jpg) = true := by
  unfold frameChunks
  split <;> simp [noPro]

/-- Prologue-freedom distributes over concatenation. -/
theorem noPro_append (a b : List Chunk) :
    noPro (a ++ b) = (noPro a && noPro b) := by
  simp [noPro]

/-- Per-client loop body on a live connection whose prologue is still
pending: write the prologue, raise the flag, then attempt the frame. -/
theorem broadcastClient_alive_new (conn : Conn) (jpg : List Nat) (mc : MjpegClient)
    (h : conn.connected = true) (hh : mc.headerSent = false) :
    broadcastClient conn jpg mc = (⟨mc.cid, true⟩, Chunk.pro :: frameChunks conn jpg) := by
  simp [broadcastClient, h, hh]

/-- Per-client loop body on a live connection whose prologue was already
sent: only the frame attempt. -/
theorem broadcastClient_alive_sent (conn : Conn) (jpg : List Nat) (mc : MjpegClient)
    (h : conn.connected = true) (hh : mc.headerSent = true) :
    broadcastClient conn jpg mc = (mc, frameChunks conn jpg) := by
  simp [broadcastClient, h, hh]

/-- A locked broadcast pass writes nothing to an unregistered connection
and does not register it. -/
theorem bcast_absent (env : Env) (jpg : List Nat) (st : List MjpegClient) (c : Nat)
    (h : st.countP (hasCid c) = 0) :
    chunksTo c (mjpeg_broadcast env jpg true st).2.2 = [] ∧
    ((mjpeg_broadcast env jpg true st).1).countP (hasCid c) = 0 := by
  have hs : ((cleanupLoop env st).1).countP (hasCid c) = 0 := by
    have := cleanup_survivors_countP_le env c st
    omega
  simp only [mjpeg_broadcast, if_true]
  exact ⟨visitLoop_chunks_absent env jpg c _ hs,
    by rw [visitLoop_clients_countP]; exact hs⟩

/-- A locked broadcast pass writes nothing to a dead connection and
evicts every entry for it. -/
theorem bcast_dead (env : Env) (jpg : List Nat) (st : List MjpegClient) (c : Nat)
    (h2 : (env c).connected = false) :
    chunksTo c (mjpeg_broadcast env jpg true st).2.2 = [] ∧
    ((mjpeg_broadcast env jpg true st).1).countP (hasCid c) = 0 := by
  have hs := cleanup_dead_survivors_countP env c st h2
  simp only [mjpeg_broadcast, if_true]
  exact ⟨visitLoop_chunks_absent env jpg c _ hs,
    by rw [visitLoop_clients_countP]; exact hs⟩

/-- A locked broadcast pass over a registry holding the live connection
once writes to it exactly the per-client body output for its entry and
leaves its updated entry registered once. -/
theorem bcast_alive (env : Env) (jpg : List Nat) (st : List MjpegClient) (c : Nat)
    (mc : MjpegClient) (h1 : st.countP (hasCid c) ≤ 1)
    (hf : st.find? (hasCid c) = some mc) (h2 : (env c).connected = true) :
    chunksTo c (mjpeg_broadcast env jpg true st).2.2 =
      (broadcastClient (env c) jpg mc).2 ∧
    ((mjpeg_broadcast env jpg true st).1).find? (hasCid c) =
      some ((broadcastClient (env c) jpg mc).1) ∧
    ((mjpeg_broadcast env jpg true st).1).countP (hasCid c) ≤ 1 := by
  have hkeep : ∀ x : MjpegClient, hasCid c x = true → (env x.cid).connected = true := by
    intro x hx
    have : x.cid = c := by simpa [hasCid] using hx
    rw [this]
    exact h2
  have hsurf : ((cleanupLoop env st).1).find? (hasCid c) = some mc := by
    rw [cleanupLoop_eq]
    simp only
    rw [find?_filter_of_imp _ _ _ hkeep]
    exact hf
  have hsurc : ((cleanupLoop env st).1).countP (hasCid c) ≤ 1 := by
    have := cleanup_survivors_countP_le env c st
    omega
  have hv := visitLoop_chunks_found env jpg c _ mc hsurc hsurf
  simp only [mjpeg_broadcast, if_true]
  exact ⟨hv.1, hv.2, by rw [visitLoop_clients_countP]; exact hsurc⟩

/-- Over any sequence of broadcast passes: an unregistered connection
receives nothing, a registered connection whose prologue was already
sent never receives another prologue, and a registered connection whose
prologue is still pending receives output that is empty or starts with
the prologue and never repeats it. -/
theorem run_bcasts_chunks (c : Nat) (steps : List (Env × List Nat × Bool)) :
    ∀ st : List MjpegClient, st.countP (hasCid c) ≤ 1 →
    (clientFlag c st = none → chunksTo c (runOps (bcastOps steps) st).2.2 = []) ∧
    (clientFlag c st = some true →
      noPro (chunksTo c (runOps (bcastOps steps) st).2.2) = true) ∧
    (clientFlag c st = some false →
      prologueOnceFirst (chunksTo c (runOps (bcastOps steps) st).2.2) = true) := by
  induction steps with
  | nil =>
    intro st _
    exact ⟨fun _ => rfl, fun _ => rfl, fun _ => rfl⟩
  | cons s rest ih =>
    intro st h
    obtain ⟨env, jpg, lk⟩ := s
    simp only [bcastOps, List.map_cons] at ih ⊢
    cases lk
    · -- lock not obtained: the pass is skipped entirely
      simp only [runOps, applyOp, mjpeg_broadcast, Bool.false_eq_true, if_false,
        List.nil_append]
      exact ih st h
    · simp only [runOps, applyOp]
      cases hf : st.find? (hasCid c) with
      | none =>
        have hz : st.countP (hasCid c) = 0 :=
          List.countP_eq_zero.mpr (List.find?_eq_none.mp hf)
        have hstep := bcast_absent env jpg st c hz
        have hafter : clientFlag c (mjpeg_broadcast env jpg true st).1 = none := by
          rw [clientFlag, List.find?_eq_none.mpr (List.countP_eq_zero.mp hstep.2)]
          rfl
        have hrec := (ih _ (by rw [hstep.2]; omega)).1 hafter
        refine ⟨?_, ?_, ?_⟩
        · intro _
          rw [chunksTo_append, hstep.1, hrec]
          rfl
        · intro hcf
          simp [clientFlag, hf] at hcf
        · intro hcf
          simp [clientFlag, hf] at hcf
      | some mc =>
        have hp := List.find?_some hf
        cases hcon : (env c).connected
        · -- dead: evicted with no output, nothing follows
          have hstep := bcast_dead env jpg st c hcon
          have hafter : clientFlag c (mjpeg_broadcast env jpg true st).1 = none := by
            rw [clientFlag, List.find?_eq_none.mpr (List.countP_eq_zero.mp hstep.2)]
            rfl
          have hrec := (ih _ (by rw [hstep.2]; omega)).1 hafter
          have htot : chunksTo c ((mjpeg_broadcast env jpg true st).2.2 ++
              (runOps (List.map (fun s => Op.bcast s.1 s.2.1 s.2.2) rest)
                (mjpeg_broadcast env jpg true st).1).2.2) = [] := by
            rw [chunksTo_append, hstep.1, hrec]
            rfl
          refine ⟨?_, ?_, ?_⟩
          · intro hcf
            simp [clientFlag, hf] at hcf
          · intro _
            rw [htot]
            rfl
          · intro _
            rw [htot]
            rfl
        · -- alive: the entry is visited and its flag raised
          have hstep := bcast_alive env jpg st c mc h hf hcon
          cases hh : mc.headerSent
          · -- first visit: prologue then frames
            have hbc := broadcastClient_alive_new (env c) jpg mc hcon hh
            have hafter : clientFlag c (mjpeg_broadcast env jpg true st).1 =
                some true := by
              rw [clientFlag, hstep.2.1, hbc]
              rfl
            have hrec := (ih _ hstep.2.2).2.1 hafter
            refine ⟨?_, ?_, ?_⟩
            · intro hcf
              simp [clientFlag, hf] at hcf
            · intro hcf
              simp [clientFlag, hf, hh] at hcf
            · intro _
              rw [chunksTo_append, hstep.1, hbc]
              simp only [List.cons_append, prologueOnceFirst]
              rw [noPro_append, noPro_frameChunks, hrec]
              rfl
          · -- prologue already sent: frames only
            have hbc := broadcastClient_alive_sent (env c) jpg mc hcon hh
            have hafter : clientFlag c (mjpeg_broadcast env jpg true st).1 =
                some true := by
              rw [clientFlag, hstep.2.1, hbc]
              simp [hh]
            have hrec := (ih _ hstep.2.2).2.1 hafter
            refine ⟨?_, ?_, ?_⟩
            · intro hcf
              simp [clientFlag, hf] at hcf
            · intro _
              rw [chunksTo_append, hstep.1, hbc]
              rw [noPro_append, noPro_frameChunks, hrec]
              rfl
            · intro hcf
              simp [clientFlag, hf, hh] at hcf

/-- When the first pass after registration finds the connection live,
its very first delivered unit is the prologue. -/
theorem run_bcasts_head (c : Nat) (env : Env) (jpg : List Nat)
    (rest : List (Env × List Nat × Bool)) (st : List MjpegClient) (mc : MjpegClient)
    (h1 : st.countP (hasCid c) ≤ 1) (hf : st.find? (hasCid c) = some mc)
    (hh : mc.headerSent = false) (hcon : (env c).connected = true) :
    (chunksTo c (runOps (bcastOps ((env, jpg, true) :: rest)) st).2.2).head? =
      some Chunk.pro := by
  have hstep := bcast_alive env jpg st c mc h1 hf hcon
  have hbc := broadcastClient_alive_new (env c) jpg mc hcon hh
  simp only [bcastOps, List.map_cons, runOps, applyOp]
  rw [chunksTo_append, hstep.1, hbc]
  rfl

/-- C6: a fresh connection is registered with headerSent false; over any
subsequent sequence of broadcast passes its output stream is empty or
consists of the prologue first and only frame units afterwards — the
prologue is never written twice — and when the first pass after
registration runs under the lock with the connection live, the prologue
is actually delivered as the first unit, however many frames were
published before the client attached. -/
theorem c6_prologue_exactly_once (steps : List (Env × List Nat × Bool))
    (st : List MjpegClient) (c : Nat) (h : st.countP (hasCid c) = 0) :
    prologueOnceFirst
      (chunksTo c (runOps (Op.attach c true :: bcastOps steps) st).2.2) = true ∧
    (∀ env jpg rest, steps = (env, jpg, true) :: rest → (env c).connected = true →
      (chunksTo c (runOps (Op.attach c true :: bcastOps steps) st).2.2).head? =
        some Chunk.pro) := by
  have hst1 : (st ++ [MjpegClient.mk c false]).countP (hasCid c) = 1 := by
    rw [List.countP_append, h]
    simp [hasCid]
  have hf1 : (st ++ [MjpegClient.mk c false]).find? (hasCid c) =
      some (MjpegClient.mk c false) := by
    rw [List.find?_append, List.find?_eq_none.mpr (List.countP_eq_zero.mp h)]
    simp [hasCid]
  constructor
  · have hcf : clientFlag c (st ++ [MjpegClient.mk c false]) = some false := by
      rw [clientFlag, hf1]
      rfl
    have hrun := (run_bcasts_chunks c steps (st ++ [MjpegClient.mk c false])
      (by rw [hst1])).2.2 hcf
    simp only [runOps, applyOp, if_true, List.nil_append]
    exact hrun
  · intro env jpg rest hsteps hcon
    subst hsteps
    have hhead := run_bcasts_head c env jpg rest (st ++ [MjpegClient.mk c false])
      (MjpegClient.mk c false) (by rw [hst1]) hf1 rfl hcon
    simp only [runOps, applyOp, if_true, List.nil_append]
    exact hhead

/-- C6 witness: from the empty registry, connection 0 attaches and one
live broadcast pass with ample space runs: the output to 0 starts with
the prologue, contains it exactly once, and its head is the prologue. -/
theorem c6_prologue_exactly_once_witness :
    (([] : List MjpegClient).countP (hasCid 0) = 0) ∧
    prologueOnceFirst (chunksTo 0 (runOps
      (Op.attach 0 true :: bcastOps [(fun _ => ⟨true, 1000⟩, [9], true)])
      []).2.2) = true ∧
    (chunksTo 0 (runOps
      (Op.attach 0 true :: bcastOps [(fun _ => ⟨true, 1000⟩, [9], true)])
      []).2.2).head? = some Chunk.pro := by
  have h := c6_prologue_exactly_once [(fun _ => ⟨true, 1000⟩, [9], true)] [] 0 rfl
  exact ⟨rfl, h.1, h.2 (fun _ => ⟨true, 1000⟩) [9] [] rfl rfl⟩

end Esp32Cam
